/-
Verification of the per-table sink core and the sink configuration
reconciler of the tiflow repository.

Sources embedded:
  * cdc/sink/tablesink (EventTableSink): AppendRowChangedEvents,
    UpdateResolvedTs, GetCheckpointTs, Close, AsyncClose, freeze,
    markAsClosed.
  * pkg/config/sink.go (SinkConfig): applyParameterBySinkURI,
    validateAndAdjustSinkURI, validateAndAdjust,
    CheckCompatibilityWithSinkURI, CSVConfig.validateAndAdjust,
    AtomicityLevel.validate, DateSeparator.FromString.

Parts of the repository that the embedded code calls but whose sources are
not in the slice (cdc/model ResolvedTs ordering, the progress tracker,
the event appenders, pkg/sink scheme predicates, protocol parsing) are
modelled from the specification; each such definition carries a doc
comment starting with `Modelled from the spec:`.

The embedding is sequential: each Go method becomes a pure function from
the receiver state (plus external inputs such as the backend write result
and the backend dead flag) to the updated state.  Calls into the progress
tracker and into the backend performed by UpdateResolvedTs are also
recorded in an action trace, so ordering claims about those calls can be
stated.
-/
import Mathlib

/-! ## Resolved timestamps (cdc/model) -/

/-- Modelled from the spec: the resolved-ts mode of cdc/model, one of
`Normal | BatchResolved`. -/
inductive ResolvedMode where
  | normal
  | batchResolved
deriving DecidableEq

/-- Modelled from the spec: rank used in the total order on resolved
timestamps, which is lexicographic on `(ts, mode-rank, batchId)`. -/
def ResolvedMode.rank : ResolvedMode → Nat
  | .normal => 0
  | .batchResolved => 1

/-- Modelled from the spec: `ResolvedTs` of cdc/model,
`{ ts : Ts, mode : Normal | BatchResolved, batchId : u64 }`. -/
structure ResolvedTs where
  mode : ResolvedMode
  ts : Nat
  batchID : Nat
deriving DecidableEq

/-- Modelled from the spec: the strict part of the total order on
`ResolvedTs`, lexicographic on `(ts, mode-rank, batchId)`. -/
def ResolvedTs.lessP (a b : ResolvedTs) : Prop :=
  a.ts < b.ts ∨
    (a.ts = b.ts ∧
      (a.mode.rank < b.mode.rank ∨
        (a.mode.rank = b.mode.rank ∧ a.batchID < b.batchID)))

instance (a b : ResolvedTs) : Decidable (ResolvedTs.lessP a b) := by
  unfold ResolvedTs.lessP; infer_instance

/-- Modelled from the spec: `ResolvedTs.Less`, the strict total order. -/
def ResolvedTs.less (a b : ResolvedTs) : Bool :=
  decide (ResolvedTs.lessP a b)

/-- Modelled from the spec: `ResolvedTs.EqualOrGreater r r1` holds when
`r` is greater than or equal to `r1` in the total order. -/
def ResolvedTs.EqualOrGreater (r r1 : ResolvedTs) : Bool :=
  decide (ResolvedTs.lessP r1 r ∨ r = r1)

/-- Modelled from the spec: `model.NewResolvedTs ts` builds a normal-mode
resolved ts. -/
def NewResolvedTs (ts : Nat) : ResolvedTs :=
  { mode := ResolvedMode.normal, ts := ts, batchID := 0 }

/-! ## Events and the progress tracker -/

/-- A table event: an opaque payload together with its commit timestamp
(the `GetCommitTs` accessor of `dmlsink.TableEvent`). -/
structure Event where
  payload : Nat
  commitTs : Nat
deriving DecidableEq

/-- Modelled from the spec: a pending item of the progress tracker, either
one in-flight event write identified by its ack id, or a resolved-ts
marker. -/
inductive TrackerItem where
  | eventPending (ackId : Nat)
  | resolvedMarker (r : ResolvedTs)
deriving DecidableEq

/-- Modelled from the spec: the progress tracker state — an ordered queue
of pending items, the set of acked ids, the next fresh ack id, the frozen
flag, the last resolved marker enqueued and the current frontier.
(The fixed-size segment batching of the queue is a memory-layout
optimisation and is not modelled.) -/
structure Tracker where
  queue : List TrackerItem
  acked : List Nat
  nextAckId : Nat
  frozen : Bool
  lastMarker? : Option ResolvedTs
  frontier : ResolvedTs
deriving DecidableEq

/-- Modelled from the spec: `addEvent` allocates a fresh monotonically
increasing ack id, appends `EventPending` to the queue and returns the id
(the returned callback inserts the id into the acked set). -/
def Tracker.addEvent (t : Tracker) : Tracker × Nat :=
  ({ t with
      queue := t.queue ++ [TrackerItem.eventPending t.nextAckId],
      nextAckId := t.nextAckId + 1 }, t.nextAckId)

/-- Modelled from the spec: `addResolvedTs r` appends a resolved marker
provided the tracker is not frozen and `r` is strictly greater than the
last marker enqueued; otherwise the marker is silently dropped. -/
def Tracker.addResolvedTs (t : Tracker) (r : ResolvedTs) : Tracker :=
  if t.frozen then t
  else
    match t.lastMarker? with
    | some lastR =>
        if ResolvedTs.less lastR r then
          { t with queue := t.queue ++ [TrackerItem.resolvedMarker r],
                   lastMarker? := some r }
        else t
    | none =>
        { t with queue := t.queue ++ [TrackerItem.resolvedMarker r],
                 lastMarker? := some r }

/-- Modelled from the spec: the loop of `advance` — pop satisfied event
ids (removing them from the acked set) and resolved markers (remembering
the frontier) from the head of the queue. -/
def advanceQueue : List TrackerItem → List Nat → ResolvedTs →
    List TrackerItem × List Nat × ResolvedTs
  | [], acked, fr => ([], acked, fr)
  | TrackerItem.eventPending id :: rest, acked, fr =>
      if acked.contains id then advanceQueue rest (acked.erase id) fr
      else (TrackerItem.eventPending id :: rest, acked, fr)
  | TrackerItem.resolvedMarker r :: rest, acked, _fr =>
      advanceQueue rest acked r

/-- Modelled from the spec: `advance` pops satisfied items from the head
of the queue and returns the current frontier. -/
def Tracker.advance (t : Tracker) : Tracker × ResolvedTs :=
  match advanceQueue t.queue t.acked t.frontier with
  | (q, a, fr) => ({ t with queue := q, acked := a, frontier := fr }, fr)

/-- Modelled from the spec: `freezeProcess` stops further resolved
markers from entering the queue. -/
def Tracker.freezeProcess (t : Tracker) : Tracker :=
  { t with frozen := true }

/-- Modelled from the spec: `checkClosed dead` returns true iff the queue
is empty or the backend is dead; when dead, the frontier additionally
advances to the last enqueued resolved marker. -/
def Tracker.checkClosed (t : Tracker) (dead : Bool) : Tracker × Bool :=
  if dead then
    match t.lastMarker? with
    | some r => ({ t with frontier := r }, true)
    | none => (t, true)
  else (t, t.queue.isEmpty)

/-- Modelled from the spec: `waitClosed dead` blocks until `checkClosed`
returns true.  Blocking itself mutates nothing in the tracker except the
dead-path frontier update of `checkClosed`, which is what this sequential
embedding records. -/
def Tracker.waitClosed (t : Tracker) (dead : Bool) : Tracker :=
  (Tracker.checkClosed t dead).1

/-- The initial progress tracker created by `newProgressTracker`. -/
def Tracker.init : Tracker :=
  { queue := [], acked := [], nextAckId := 0, frozen := false,
    lastMarker? := none, frontier := NewResolvedTs 0 }

/-! ## The event table sink -/

/-- An error value returned by the backend sink from `WriteEvents`. -/
structure GoError where
  code : Nat
deriving DecidableEq

/-- `SinkInternalError` wraps a backend-reported error. -/
inductive SinkError where
  | sinkInternalError (err : GoError)
deriving DecidableEq

/-- `dmlsink.CallbackableEvent`: an event decorated with its ack callback
(identified here by the ack id the progress tracker allocated for it).
The Go struct also carries a pointer to the sink state cell; that pointer
is shared, not copied, so it is not part of the event value here. -/
structure CallbackableEvent where
  event : Event
  ackId : Nat
deriving DecidableEq

/-- One call made by `UpdateResolvedTs` to an external collaborator, in
program order: a `progressTracker.addEvent` allocation, the
`progressTracker.addResolvedTs` enqueue, or the `backendSink.WriteEvents`
call with its batch. -/
inductive SinkAction where
  | addEvent (ackId : Nat)
  | addResolvedTs (r : ResolvedTs)
  | writeEvents (batch : List CallbackableEvent)
deriving DecidableEq

/-- `state.TableSinkState`: `Sinking`, `Stopping` or `Stopped`. -/
inductive TableSinkState where
  | sinking
  | stopping
  | stopped
deriving DecidableEq

/-- `EventTableSink`: the per-span table sink.  The changefeed id, span
and metrics counter are identification/observability data and are
omitted; the backend sink is external and enters the embedding through
the `backendErr`/`dead` parameters of the operations. -/
structure EventTableSink where
  startTs : Nat
  maxResolvedTs : ResolvedTs
  eventBuffer : List Event
  tracker : Tracker
  state : TableSinkState
deriving DecidableEq

/-- `New`: a fresh table sink in state `Sinking` with an empty buffer. -/
def EventTableSink.New (startTs : Nat) : EventTableSink :=
  { startTs := startTs, maxResolvedTs := NewResolvedTs 0, eventBuffer := [],
    tracker := Tracker.init, state := TableSinkState.sinking }

/-- Go's `sort.Search` loop: binary search for the smallest index in
`[i, j)` at which `f` is true (assuming `f` monotone), returning `j` if
there is none.  `sort.Search n f` is `sortSearchLoop f 0 n`. -/
def sortSearchLoop (f : Nat → Bool) (i j : Nat) : Nat :=
  if i < j then
    if f ((i + j) / 2) then sortSearchLoop f i ((i + j) / 2)
    else sortSearchLoop f ((i + j) / 2 + 1) j
  else i
termination_by j - i
decreasing_by
  all_goals omega

/-- Go's `sort.Search n f`. -/
def sortSearch (n : Nat) (f : Nat → Bool) : Nat :=
  sortSearchLoop f 0 n

/-- Modelled from the spec: the appender strategy used by
`AppendRowChangedEvents` appends the given events to the buffer in
insertion order (the single-row strategy; the spec states appends keep
insertion order, which equals commit-ts order). -/
def appenderAppend (buffer : List Event) (rows : List Event) : List Event :=
  buffer ++ rows

/-- `AppendRowChangedEvents`: appends row changed events to the event
buffer via the appender.  (The Go method also bumps a metrics counter.)
Note the source performs no state check here. -/
def EventTableSink.AppendRowChangedEvents (e : EventTableSink)
    (rows : List Event) : EventTableSink :=
  { e with eventBuffer := appenderAppend e.eventBuffer rows }

/-- The wrapping loop of `UpdateResolvedTs`: for each resolved event,
allocate an ack callback via `progressTracker.addEvent` and build the
`CallbackableEvent`. -/
def wrapEvents (t : Tracker) : List Event → Tracker × List CallbackableEvent
  | [] => (t, [])
  | ev :: rest =>
      match Tracker.addEvent t with
      | (t1, id) =>
          match wrapEvents t1 rest with
          | (t2, ces) => (t2, { event := ev, ackId := id } :: ces)

/-- `UpdateResolvedTs`: advances the resolved ts of the table sink.
`backendErr` is the result the backend returns if `WriteEvents` is
called.  Besides the updated sink, the function returns the trace of
calls it made to the progress tracker and the backend (in program
order), and its Go return value. -/
def EventTableSink.UpdateResolvedTs (e : EventTableSink)
    (resolvedTs : ResolvedTs) (backendErr : Option GoError) :
    EventTableSink × List SinkAction × Except SinkError Unit :=
  if ResolvedTs.EqualOrGreater e.maxResolvedTs resolvedTs then
    (e, [], Except.ok ())
  else
    let e1 := { e with maxResolvedTs := resolvedTs }
    let i := sortSearch e1.eventBuffer.length fun k =>
      decide (resolvedTs.ts <
        (e1.eventBuffer.getD k { payload := 0, commitTs := 0 }).commitTs)
    if i = 0 then
      let e2 := { e1 with tracker := Tracker.addResolvedTs e1.tracker resolvedTs }
      (e2, [SinkAction.addResolvedTs resolvedTs, SinkAction.writeEvents []],
        match backendErr with
        | some ge => Except.error (SinkError.sinkInternalError ge)
        | none => Except.ok ())
    else
      let resolvedEvents := e1.eventBuffer.take i
      let e2 := { e1 with eventBuffer := e1.eventBuffer.drop i }
      match wrapEvents e2.tracker resolvedEvents with
      | (t1, ces) =>
          let e3 := { e2 with tracker := Tracker.addResolvedTs t1 resolvedTs }
          (e3,
            (ces.map fun c => SinkAction.addEvent c.ackId) ++
              [SinkAction.addResolvedTs resolvedTs, SinkAction.writeEvents ces],
            match backendErr with
            | some ge => Except.error (SinkError.sinkInternalError ge)
            | none => Except.ok ())

/-- `markAsClosed`: CAS the state to `Stopped` unless it already is, then
log the checkpoint (the inner `GetCheckpointTs` call advances the
tracker; with the state already `Stopped` it performs no close probe). -/
def EventTableSink.markAsClosed (e : EventTableSink) : EventTableSink :=
  if e.state = TableSinkState.stopped then e
  else
    let e1 := { e with state := TableSinkState.stopped }
    { e1 with tracker := (Tracker.advance e1.tracker).1 }

/-- `GetCheckpointTs`: in state `Stopping`, probe `checkClosed` with the
backend dead flag and transition to `Stopped` when it reports closed;
then return `progressTracker.advance()`. -/
def EventTableSink.GetCheckpointTs (dead : Bool) (e : EventTableSink) :
    EventTableSink × ResolvedTs :=
  let e1 :=
    if e.state = TableSinkState.stopping then
      match Tracker.checkClosed e.tracker dead with
      | (t1, closed) =>
          let e2 := { e with tracker := t1 }
          if closed then EventTableSink.markAsClosed e2 else e2
    else e
  match Tracker.advance e1.tracker with
  | (t2, r) => ({ e1 with tracker := t2 }, r)

/-- `freeze`: freeze the progress tracker first, then CAS the state from
`Sinking` to `Stopping` (a no-op when already stopping or stopped); on a
successful CAS the stopping checkpoint is computed for logging, which
also advances the tracker. -/
def EventTableSink.freeze (dead : Bool) (e : EventTableSink) : EventTableSink :=
  let e1 := { e with tracker := Tracker.freezeProcess e.tracker }
  if e1.state = TableSinkState.stopping ∨ e1.state = TableSinkState.stopped then e1
  else
    let e2 := { e1 with state := TableSinkState.stopping }
    (EventTableSink.GetCheckpointTs dead e2).1

/-- `Close`: `freeze`, wait for the tracker to close (blocking; the wait
itself mutates nothing beyond `checkClosed`'s dead-path frontier update),
then `markAsClosed`. -/
def EventTableSink.Close (dead : Bool) (e : EventTableSink) : EventTableSink :=
  let e1 := EventTableSink.freeze dead e
  let e2 := { e1 with tracker := Tracker.waitClosed e1.tracker dead }
  EventTableSink.markAsClosed e2

/-- `AsyncClose`: `freeze`; if the tracker reports closed, `markAsClosed`
and return true, else return false. -/
def EventTableSink.AsyncClose (dead : Bool) (e : EventTableSink) :
    EventTableSink × Bool :=
  let e1 := EventTableSink.freeze dead e
  match Tracker.checkClosed e1.tracker dead with
  | (t1, closed) =>
      let e2 := { e1 with tracker := t1 }
      if closed then (EventTableSink.markAsClosed e2, true) else (e2, false)

/-- The lifecycle operations a caller can invoke on a table sink. -/
inductive SinkOp where
  | freeze
  | markAsClosed
  | close
  | asyncClose
  | getCheckpointTs
deriving DecidableEq

/-- Apply one lifecycle operation to the sink (with a fixed backend dead
flag). -/
def applyOp (dead : Bool) (e : EventTableSink) : SinkOp → EventTableSink
  | SinkOp.freeze => EventTableSink.freeze dead e
  | SinkOp.markAsClosed => EventTableSink.markAsClosed e
  | SinkOp.close => EventTableSink.Close dead e
  | SinkOp.asyncClose => (EventTableSink.AsyncClose dead e).1
  | SinkOp.getCheckpointTs => (EventTableSink.GetCheckpointTs dead e).1

/-- Apply a sequence of lifecycle operations left to right. -/
def applyOps (dead : Bool) (e : EventTableSink) (ops : List SinkOp) :
    EventTableSink :=
  ops.foldl (applyOp dead) e

/-- Rank of a table sink state along `Sinking → Stopping → Stopped`. -/
def stateRank : TableSinkState → Nat
  | TableSinkState.sinking => 0
  | TableSinkState.stopping => 1
  | TableSinkState.stopped => 2


/-! ## Sink configuration (pkg/config/sink.go) -/

/-- A Go pointer to a value of type `α`: either nil, or an allocation
identity paired with the pointed-to value.  Go compares pointers by
identity (`goPtrEq`); the pointed-to value is read through `getOrZero`.
Pointers allocated inside the embedded functions are never compared by
identity afterwards, so `addressOf` can use a fixed allocation id. -/
abbrev GoPtr (α : Type) := Option (Nat × α)

/-- Go pointer equality (`==` on two pointers of the same type). -/
def goPtrEq {α : Type} (p q : GoPtr α) : Bool :=
  match p, q with
  | none, none => true
  | some (i, _), some (j, _) => i == j
  | _, _ => false

/-- The value a Go pointer points to, if any. -/
def ptrVal {α : Type} (p : GoPtr α) : Option α :=
  match p with
  | some (_, v) => some v
  | none => none

/-- `util.GetOrZero`: dereference, or the zero value for a nil pointer
(`""` for strings, `0` for ints, `false` for bools — the `Inhabited`
defaults of the corresponding Lean types). -/
def getOrZero {α : Type} [Inhabited α] (p : GoPtr α) : α :=
  match p with
  | some (_, v) => v
  | none => default

/-- `util.AddressOf`: a fresh pointer to a copy of the value (the
allocation id is irrelevant, see `GoPtr`). -/
def addressOf {α : Type} (v : α) : GoPtr α :=
  some (0, v)

/-- The part of a parsed sink URI the embedded code reads: the scheme and
the `transaction-atomicity` / `protocol` query values (`Query().Get`
returns the empty string when the key is absent). -/
structure SinkURI where
  scheme : String
  txnAtomicityQ : String
  protocolQ : String
deriving DecidableEq

/-- Modelled from the spec: `sink.IsMQScheme` — the mq scheme family
(kafka, pulsar). -/
def IsMQScheme (scheme : String) : Bool :=
  scheme == "kafka" || scheme == "kafka+ssl" ||
    scheme == "pulsar" || scheme == "pulsar+ssl"

/-- Modelled from the spec: `sink.IsStorageScheme` — the object-store
scheme family. -/
def IsStorageScheme (scheme : String) : Bool :=
  scheme == "file" || scheme == "local" || scheme == "s3" ||
    scheme == "azblob" || scheme == "gcs" || scheme == "gs"

/-- Modelled from the spec: `sink.IsMySQLCompatibleScheme`. -/
def IsMySQLCompatibleScheme (scheme : String) : Bool :=
  scheme == "mysql" || scheme == "mysql+ssl" ||
    scheme == "tidb" || scheme == "tidb+ssl"

/-- The protocol names the spec lists as known. -/
inductive Protocol where
  | ProtocolUnknown
  | ProtocolOpen
  | ProtocolCanal
  | ProtocolCanalJSON
  | ProtocolAvro
  | ProtocolMaxwell
  | ProtocolCsv
deriving DecidableEq

/-- The error kinds of pkg/errors produced by the embedded code.
`incompatibleSinkConfig` carries the two diagnostic maps that the Go
code formats into the error message. -/
inductive ConfigError where
  | incompatibleSinkConfig (inURI inFile : List (String × String))
  | sinkURIInvalid (msg : String)
  | sinkInvalidConfig (msg : String)
  | storageSinkInvalidDateSeparator (arg : String)
  | unknownProtocol (arg : String)
deriving DecidableEq

/-- The outcome of a config function: success, a returned error, or a
`log.Panic` (fatal, never returns in Go). -/
inductive VResult where
  | ok
  | err (e : ConfigError)
  | fatal
deriving DecidableEq

/-- Modelled from the spec: `ParseSinkProtocolFromString` (the protocol
parser of pkg/config is not in the source slice; the spec lists the
known protocols open, canal, canal-json, avro, maxwell, csv). -/
def ParseSinkProtocolFromString (protocol : String) : Protocol × Option ConfigError :=
  if protocol = "open" then (Protocol.ProtocolOpen, none)
  else if protocol = "canal" then (Protocol.ProtocolCanal, none)
  else if protocol = "canal-json" then (Protocol.ProtocolCanalJSON, none)
  else if protocol = "avro" then (Protocol.ProtocolAvro, none)
  else if protocol = "maxwell" then (Protocol.ProtocolMaxwell, none)
  else if protocol = "csv" then (Protocol.ProtocolCsv, none)
  else (Protocol.ProtocolUnknown, some (ConfigError.unknownProtocol protocol))

/-- `AtomicityLevel.validate`: nothing to check for unset or `none`
atomicity; `table` atomicity is rejected for MQ schemes; any other value
is rejected. -/
def AtomicityLevel.validate (l : String) (scheme : String) : Option ConfigError :=
  if l = "" then none
  else if l = "none" then none
  else if l = "table" then
    if IsMQScheme scheme then
      some (ConfigError.sinkURIInvalid
        (l ++ " level atomicity is not supported by " ++ scheme ++ " scheme"))
    else none
  else
    some (ConfigError.sinkURIInvalid
      (l ++ " level atomicity is not supported by " ++ scheme ++ " scheme"))

/-- The `DateSeparator` enum. -/
inductive DateSeparator where
  | dsNone
  | dsYear
  | dsMonth
  | dsDay
deriving DecidableEq

/-- `DateSeparator.FromString` (case-insensitive). -/
def DateSeparator.fromString (separator : String) : Except ConfigError DateSeparator :=
  let t := separator.toLower
  if t = "none" then Except.ok DateSeparator.dsNone
  else if t = "year" then Except.ok DateSeparator.dsYear
  else if t = "month" then Except.ok DateSeparator.dsMonth
  else if t = "day" then Except.ok DateSeparator.dsDay
  else Except.error (ConfigError.storageSinkInvalidDateSeparator separator)

/-- A dispatch (partition) rule. -/
structure DispatchRule where
  matcher : List String
  dispatcherRule : String
  partitionRule : String
  topicRule : String
deriving DecidableEq

/-- The CSV sub-config. -/
structure CSVConfig where
  delimiter : String
  quote : String
  nullString : String
  includeCommitTs : Bool
  binaryEncodingMethod : String
deriving DecidableEq

/-- Whether `needle` occurs at the head of `hay`. -/
def leadsWith : List Char → List Char → Bool
  | [], _ => true
  | _ :: _, [] => false
  | a :: as, b :: bs => a == b && leadsWith as bs

/-- Go's `strings.Contains` on the underlying character lists. -/
def hasSubList (needle : List Char) : List Char → Bool
  | [] => leadsWith needle []
  | c :: rest => leadsWith needle (c :: rest) || hasSubList needle rest

/-- `CSVConfig.validateAndAdjust` (nil config passes; quote at most one
character and no line break; delimiter non-empty, no line breaks, not
containing the quote; binary-encoding-method hex or base64). -/
def CSVConfig.validateAndAdjust (c? : Option CSVConfig) : Option ConfigError :=
  match c? with
  | none => none
  | some c =>
      if c.quote.length > 1 then
        some (ConfigError.sinkInvalidConfig
          "csv config quote contains more than one character")
      else if c.quote.length = 1 ∧
          (c.quote.toList.getD 0 ' ' = '\r' ∨ c.quote.toList.getD 0 ' ' = '\n') then
        some (ConfigError.sinkInvalidConfig
          "csv config quote cannot be line break character")
      else if c.delimiter.length = 0 then
        some (ConfigError.sinkInvalidConfig "csv config delimiter cannot be empty")
      else if c.delimiter.toList.contains '\r' || c.delimiter.toList.contains '\n' then
        some (ConfigError.sinkInvalidConfig
          "csv config delimiter contains line break characters")
      else if c.quote.length > 0 && hasSubList c.quote.toList c.delimiter.toList then
        some (ConfigError.sinkInvalidConfig
          "csv config quote and delimiter cannot be the same")
      else if c.binaryEncodingMethod = "hex" ∨ c.binaryEncodingMethod = "base64" then
        none
      else
        some (ConfigError.sinkInvalidConfig
          "csv config binary-encoding-method can only be hex or base64")

/-- The `SinkConfig` fields the embedded functions read or write (the
remaining fields of the Go struct are never touched by this code). -/
structure SinkConfig where
  txnAtomicity : GoPtr String
  protocol : GoPtr String
  dispatchRules : List DispatchRule
  csvConfig : Option CSVConfig
  encoderConcurrency : GoPtr Int
  terminator : GoPtr String
  dateSeparator : GoPtr String
  fileIndexWidth : GoPtr Int
  deleteOnlyOutputHandleKeyColumns : GoPtr Bool
deriving DecidableEq

/-- The `transaction-atomicity` query key. -/
def TxnAtomicityKey : String := "transaction-atomicity"

/-- The `protocol` query key. -/
def ProtocolKey : String := "protocol"

/-- The default terminator. -/
def CRLF : String := "\r\n"

/-- `MinFileIndexWidth`. -/
def MinFileIndexWidth : Int := 6

/-- `MaxFileIndexWidth`. -/
def MaxFileIndexWidth : Int := 20

/-- `DefaultFileIndexWidth`. -/
def DefaultFileIndexWidth : Int := MaxFileIndexWidth

/-- `applyParameterBySinkURI`: read `transaction-atomicity` and
`protocol` from the URI query; whenever the URI supplies a non-empty
value it overwrites the config field (URI wins), and a conflicting pair
is recorded in the two diagnostic maps; finally `getError` panics on a
map-size mismatch, succeeds when both maps are empty, and otherwise
returns `IncompatibleSinkConfig` carrying both maps. -/
def SinkConfig.applyParameterBySinkURI (s : SinkConfig) (uri? : Option SinkURI) :
    SinkConfig × VResult :=
  match uri? with
  | none => (s, VResult.ok)
  | some uri =>
      let txnAtomicityFromURI := uri.txnAtomicityQ
      let step1 :=
        if txnAtomicityFromURI ≠ "" then
          let maps :=
            if getOrZero s.txnAtomicity ≠ "" ∧
                getOrZero s.txnAtomicity ≠ txnAtomicityFromURI then
              ([(TxnAtomicityKey, txnAtomicityFromURI)],
                [(TxnAtomicityKey, getOrZero s.txnAtomicity)])
            else ([], [])
          (maps.1, maps.2, { s with txnAtomicity := addressOf txnAtomicityFromURI })
        else ([], [], s)
      match step1 with
      | (uriM1, fileM1, s1) =>
          let protocolFromURI := uri.protocolQ
          let step2 :=
            if protocolFromURI ≠ "" then
              let maps :=
                if s1.protocol.isSome ∧ getOrZero s1.protocol ≠ protocolFromURI then
                  (uriM1 ++ [(ProtocolKey, protocolFromURI)],
                    fileM1 ++ [(ProtocolKey, getOrZero s1.protocol)])
                else (uriM1, fileM1)
              (maps.1, maps.2, { s1 with protocol := addressOf protocolFromURI })
            else (uriM1, fileM1, s1)
          match step2 with
          | (cfgInSinkURI, cfgInFile, s2) =>
              if cfgInSinkURI.length ≠ cfgInFile.length then (s2, VResult.fatal)
              else if cfgInSinkURI.isEmpty ∧ cfgInFile.isEmpty then (s2, VResult.ok)
              else
                (s2, VResult.err
                  (ConfigError.incompatibleSinkConfig cfgInSinkURI cfgInFile))

/-- `cerror.ErrIncompatibleSinkConfig.Equal` on an error value. -/
def isIncompatibleErr : ConfigError → Bool
  | ConfigError.incompatibleSinkConfig _ _ => true
  | _ => false

/-- `cerror.ErrIncompatibleSinkConfig.Equal` on a whole result (false
for a nil error). -/
def isIncompatibleRes : VResult → Bool
  | VResult.err e => isIncompatibleErr e
  | _ => false

/-- The checks `validateAndAdjustSinkURI` performs after reconciliation:
validate the (possibly URI-supplied) atomicity against the scheme, then
require a parsable protocol for MQ/storage schemes and the absence of a
protocol for MySQL-compatible schemes. -/
def SinkConfig.sinkURIChecks (s : SinkConfig) (uri : SinkURI) :
    SinkConfig × VResult :=
  match AtomicityLevel.validate (getOrZero s.txnAtomicity) uri.scheme with
  | some e => (s, VResult.err e)
  | none =>
      if IsMQScheme uri.scheme || IsStorageScheme uri.scheme then
        match (ParseSinkProtocolFromString (getOrZero s.protocol)).2 with
        | some e => (s, VResult.err e)
        | none => (s, VResult.ok)
      else if IsMySQLCompatibleScheme uri.scheme && s.protocol.isSome then
        (s, VResult.err (ConfigError.sinkURIInvalid
          ("protocol " ++ getOrZero s.protocol ++ " is incompatible with " ++
            uri.scheme ++ " scheme")))
      else (s, VResult.ok)

/-- `validateAndAdjustSinkURI`: reconcile with the URI; an
`IncompatibleSinkConfig` error from the reconciliation is only logged
and validation proceeds with the URI-supplied values, any other error is
returned; then perform the scheme checks. -/
def SinkConfig.validateAndAdjustSinkURI (s : SinkConfig) (uri? : Option SinkURI) :
    SinkConfig × VResult :=
  match uri? with
  | none => (s, VResult.ok)
  | some uri =>
      match SinkConfig.applyParameterBySinkURI s (some uri) with
      | (s1, VResult.fatal) => (s1, VResult.fatal)
      | (s1, VResult.err e) =>
          if isIncompatibleErr e then SinkConfig.sinkURIChecks s1 uri
          else (s1, VResult.err e)
      | (s1, VResult.ok) => SinkConfig.sinkURIChecks s1 uri

/-- The dispatch-rule loop of `validateAndAdjust`: reject a rule having
both the deprecated `dispatcher` and `partition` set; otherwise move
`dispatcher` into `partition`.  `none` reports the rejection. -/
def adjustDispatchRules : List DispatchRule → Option (List DispatchRule)
  | [] => some []
  | r :: rest =>
      if r.dispatcherRule ≠ "" ∧ r.partitionRule ≠ "" then none
      else
        let r1 :=
          if r.dispatcherRule ≠ "" then
            { r with partitionRule := r.dispatcherRule, dispatcherRule := "" }
          else r
        match adjustDispatchRules rest with
        | none => none
        | some rs => some (r1 :: rs)

/-- `SinkConfig.validateAndAdjust`: URI validation, early success for
MySQL-compatible schemes, dispatch-rule adjustment, encoder-concurrency
and terminator handling, the csv/delete-only cross check, and for
storage schemes the date separator, the silent file-index-width clamp
and CSV validation.  (A nil URI would crash in Go when the scheme is
read; callers always pass a parsed URI.) -/
def SinkConfig.validateAndAdjust (s : SinkConfig) (uri : SinkURI) :
    SinkConfig × VResult :=
  match SinkConfig.validateAndAdjustSinkURI s (some uri) with
  | (s1, VResult.ok) =>
      if IsMySQLCompatibleScheme uri.scheme then (s1, VResult.ok)
      else
        match adjustDispatchRules s1.dispatchRules with
        | none =>
            (s1, VResult.err (ConfigError.sinkInvalidConfig
              "dispatcher and partition cannot be configured both"))
        | some rules =>
            let s2 := { s1 with dispatchRules := rules }
            if getOrZero s2.encoderConcurrency < 0 then
              (s2, VResult.err (ConfigError.sinkInvalidConfig
                "encoder-concurrency should greater than 0"))
            else
              let s3 :=
                if s2.terminator.isSome then s2
                else { s2 with terminator := addressOf CRLF }
              if getOrZero s3.deleteOnlyOutputHandleKeyColumns ∧
                  (ParseSinkProtocolFromString (getOrZero s3.protocol)).1 =
                    Protocol.ProtocolCsv then
                (s3, VResult.err (ConfigError.sinkInvalidConfig
                  "CSV protocol always output all columns for the delete event"))
              else if IsStorageScheme uri.scheme then
                match
                  (if (getOrZero s3.dateSeparator).length > 0 then
                    match DateSeparator.fromString (getOrZero s3.dateSeparator) with
                    | Except.error _e =>
                        some (ConfigError.sinkInvalidConfig
                          ("wrapped: invalid date separator " ++
                            getOrZero s3.dateSeparator))
                    | Except.ok _ => none
                  else none) with
                | some e => (s3, VResult.err e)
                | none =>
                    let s4 :=
                      if getOrZero s3.fileIndexWidth < MinFileIndexWidth ∨
                          MaxFileIndexWidth < getOrZero s3.fileIndexWidth then
                        { s3 with fileIndexWidth := addressOf DefaultFileIndexWidth }
                      else s3
                    match CSVConfig.validateAndAdjust s4.csvConfig with
                    | some e => (s4, VResult.err e)
                    | none => (s4, VResult.ok)
              else (s3, VResult.ok)
  | (s1, r) => (s1, r)

/-- `CheckCompatibilityWithSinkURI` (the URI arrives already parsed; a
`url.Parse` failure — outside this model — is wrapped as
`SinkURIInvalid`).  Note the Go code compares the `Protocol` and
`TxnAtomicity` *pointers* of the two configs, not the pointed-to
values. -/
def SinkConfig.CheckCompatibilityWithSinkURI (s oldSinkConfig : SinkConfig)
    (uri : SinkURI) : SinkConfig × VResult :=
  let cfgParamsChanged :=
    !(goPtrEq s.protocol oldSinkConfig.protocol) ||
      !(goPtrEq s.txnAtomicity oldSinkConfig.txnAtomicity)
  let uriParamsChanged :=
    isIncompatibleRes
      (SinkConfig.applyParameterBySinkURI oldSinkConfig (some uri)).2
  if !uriParamsChanged && !cfgParamsChanged then (s, VResult.ok)
  else
    match SinkConfig.applyParameterBySinkURI s (some uri) with
    | (s1, compatibilityError) =>
        if uriParamsChanged && isIncompatibleRes compatibilityError then
          (s1, VResult.ok)
        else (s1, compatibilityError)

/-! ## Concrete instances used to exercise the theorems -/

/-- A sink in state `Sinking` holding three buffered events with commit
timestamps 3, 5 and 7. -/
def wSink1 : EventTableSink :=
  { startTs := 0, maxResolvedTs := NewResolvedTs 0,
    eventBuffer :=
      [{ payload := 1, commitTs := 3 }, { payload := 2, commitTs := 5 },
        { payload := 3, commitTs := 7 }],
    tracker := Tracker.init, state := TableSinkState.sinking }

/-- A normal-mode resolved ts at 6. -/
def wR6 : ResolvedTs := NewResolvedTs 6

/-- A sink already advanced to resolved ts 50. -/
def wSink2 : EventTableSink :=
  { startTs := 0, maxResolvedTs := NewResolvedTs 50, eventBuffer := [],
    tracker := Tracker.init, state := TableSinkState.sinking }

/-- A normal-mode resolved ts at 30. -/
def wR30 : ResolvedTs := NewResolvedTs 30

/-- A sink whose state is `Stopped` with an empty buffer. -/
def wSinkStopped : EventTableSink :=
  { startTs := 0, maxResolvedTs := NewResolvedTs 0, eventBuffer := [],
    tracker := Tracker.init, state := TableSinkState.stopped }

/-- A single event with commit ts 5. -/
def wEvent5 : Event := { payload := 9, commitTs := 5 }

/-- A normal-mode resolved ts at 100. -/
def wR100 : ResolvedTs := NewResolvedTs 100

/-- A backend error value. -/
def wErr7 : GoError := { code := 7 }

/-- An all-nil sink config. -/
def cfgNil : SinkConfig :=
  { txnAtomicity := none, protocol := none, dispatchRules := [],
    csvConfig := none, encoderConcurrency := none, terminator := none,
    dateSeparator := none, fileIndexWidth := none,
    deleteOnlyOutputHandleKeyColumns := none }

/-- A sink config whose protocol pointer is non-nil but points to the
empty string. -/
def cfgEmptyProto : SinkConfig :=
  { cfgNil with protocol := some (7, "") }

/-- A kafka URI supplying `protocol=open` and no atomicity. -/
def uriKafkaOpen : SinkURI :=
  { scheme := "kafka", txnAtomicityQ := "", protocolQ := "open" }

/-- A kafka URI with an empty query. -/
def uriKafkaPlain : SinkURI :=
  { scheme := "kafka", txnAtomicityQ := "", protocolQ := "" }

/-- A storage (s3) URI with an empty query. -/
def uriS3 : SinkURI :=
  { scheme := "s3", txnAtomicityQ := "", protocolQ := "" }

/-- A config valid for a storage sink apart from its out-of-range
file-index-width of 3. -/
def cfgStorageW3 : SinkConfig :=
  { cfgNil with protocol := some (2, "canal-json"),
                fileIndexWidth := some (3, (3 : Int)) }
/-- The `cfgInSinkURI` diagnostic map as the claim describes it: a pair
per parameter on which the URI and the file disagree. -/
def specRecordedURI (s : SinkConfig) (uri : SinkURI) : List (String × String) :=
  (if uri.txnAtomicityQ ≠ "" ∧ getOrZero s.txnAtomicity ≠ "" ∧
      getOrZero s.txnAtomicity ≠ uri.txnAtomicityQ then
    [(TxnAtomicityKey, uri.txnAtomicityQ)]
  else []) ++
    (if uri.protocolQ ≠ "" ∧ s.protocol.isSome ∧
        getOrZero s.protocol ≠ uri.protocolQ then
      [(ProtocolKey, uri.protocolQ)]
    else [])

/-- The `cfgInFile` diagnostic map: the config-side values recorded under
the same conditions. -/
def specRecordedFile (s : SinkConfig) (uri : SinkURI) : List (String × String) :=
  (if uri.txnAtomicityQ ≠ "" ∧ getOrZero s.txnAtomicity ≠ "" ∧
      getOrZero s.txnAtomicity ≠ uri.txnAtomicityQ then
    [(TxnAtomicityKey, getOrZero s.txnAtomicity)]
  else []) ++
    (if uri.protocolQ ≠ "" ∧ s.protocol.isSome ∧
        getOrZero s.protocol ≠ uri.protocolQ then
      [(ProtocolKey, getOrZero s.protocol)]
    else [])

theorem ResolvedTs.lessP_asymm {a b : ResolvedTs} (h : ResolvedTs.lessP a b) :
    ¬ ResolvedTs.lessP b a := by
  intro h1
  unfold ResolvedTs.lessP at h h1
  omega

theorem ResolvedTs.lessP_irrefl (a : ResolvedTs) : ¬ ResolvedTs.lessP a a := by
  intro h; unfold ResolvedTs.lessP at h; omega

theorem ResolvedTs.lessP_total (a b : ResolvedTs) :
    ResolvedTs.lessP a b ∨ ResolvedTs.lessP b a ∨ a = b := by
  obtain ⟨ma, ta, ba⟩ := a
  obtain ⟨mb, tb, bb⟩ := b
  by_cases hm : ma = mb
  · subst hm
    simp only [ResolvedTs.lessP, ResolvedTs.mk.injEq, eq_self_iff_true, true_and]
    omega
  · have hr : ma.rank ≠ mb.rank := by
      cases ma <;> cases mb <;> simp_all [ResolvedMode.rank]
    simp only [ResolvedTs.lessP, ResolvedTs.mk.injEq]
    rcases Nat.lt_trichotomy ta tb with h | h | h
    · exact Or.inl (Or.inl h)
    · rcases Nat.lt_or_ge ma.rank mb.rank with h2 | h2
      · exact Or.inl (Or.inr ⟨h, Or.inl h2⟩)
      · exact Or.inr (Or.inl (Or.inr ⟨h.symm, Or.inl (by omega)⟩))
    · exact Or.inr (Or.inl (Or.inl h))

theorem ResolvedTs.eog_false_of_less {a b : ResolvedTs}
    (h : ResolvedTs.less a b = true) :
    ResolvedTs.EqualOrGreater a b = false := by
  unfold ResolvedTs.less at h
  unfold ResolvedTs.EqualOrGreater
  simp only [decide_eq_true_eq] at h
  simp only [decide_eq_false_iff_not]
  rintro (h1 | rfl)
  · exact ResolvedTs.lessP_asymm h h1
  · exact ResolvedTs.lessP_irrefl _ h

theorem ResolvedTs.eog_true_of_not_less {a b : ResolvedTs}
    (h : ResolvedTs.less a b = false) :
    ResolvedTs.EqualOrGreater a b = true := by
  unfold ResolvedTs.less at h
  unfold ResolvedTs.EqualOrGreater
  simp only [decide_eq_false_iff_not] at h
  simp only [decide_eq_true_eq]
  rcases ResolvedTs.lessP_total a b with h1 | h1 | h1
  · exact absurd h1 h
  · exact Or.inl h1
  · exact Or.inr h1

/-! ## Helper lemmas about the binary search and list slicing -/

theorem sortSearchLoop_spec (f : Nat → Bool) (n : Nat)
    (mono : ∀ a b, a ≤ b → b < n → f a = true → f b = true) :
    ∀ d i j, j - i ≤ d → i ≤ j → j ≤ n →
      (∀ k, k < i → f k = false) → (∀ k, j ≤ k → k < n → f k = true) →
      i ≤ sortSearchLoop f i j ∧ sortSearchLoop f i j ≤ j ∧
      (∀ k, k < sortSearchLoop f i j → f k = false) ∧
      (∀ k, sortSearchLoop f i j ≤ k → k < n → f k = true) := by
  intro d
  induction d with
  | zero =>
      intro i j hd hij hjn hlo hhi
      have hnot : ¬ i < j := by omega
      rw [sortSearchLoop, if_neg hnot]
      exact ⟨le_refl i, hij, hlo, fun k hk1 hk2 => hhi k (by omega) hk2⟩
  | succ d ih =>
      intro i j hd hij hjn hlo hhi
      by_cases hlt : i < j
      · rw [sortSearchLoop, if_pos hlt]
        by_cases hfm : f ((i + j) / 2) = true
        · rw [if_pos hfm]
          have hm2 : (i + j) / 2 < j := by omega
          obtain ⟨h1, h2, h3, h4⟩ :=
            ih i ((i + j) / 2) (by omega) (by omega) (by omega) hlo
              (fun k hk1 hk2 => mono _ k hk1 hk2 hfm)
          exact ⟨h1, by omega, h3, h4⟩
        · rw [if_neg hfm]
          have hm2 : (i + j) / 2 < j := by omega
          have hlo2 : ∀ k, k < (i + j) / 2 + 1 → f k = false := by
            intro k hk
            cases hfk : f k
            · rfl
            · exact absurd (mono k ((i + j) / 2) (by omega) (by omega) hfk) hfm
          obtain ⟨h1, h2, h3, h4⟩ :=
            ih ((i + j) / 2 + 1) j (by omega) (by omega) hjn hlo2 hhi
          exact ⟨by omega, h2, h3, h4⟩
      · rw [sortSearchLoop, if_neg hlt]
        have hij2 : i = j := by omega
        subst hij2
        exact ⟨le_refl i, le_refl i, hlo, fun k hk1 hk2 => hhi k hk1 hk2⟩

theorem sortSearch_spec (f : Nat → Bool) (n : Nat)
    (mono : ∀ a b, a ≤ b → b < n → f a = true → f b = true) :
    sortSearch n f ≤ n ∧
    (∀ k, k < sortSearch n f → f k = false) ∧
    (∀ k, sortSearch n f ≤ k → k < n → f k = true) := by
  obtain ⟨_, h2, h3, h4⟩ :=
    sortSearchLoop_spec f n mono n 0 n (by omega) (by omega) (le_refl n)
      (fun k hk => absurd hk (Nat.not_lt_zero k))
      (fun k hk1 hk2 => absurd hk2 (by omega))
  exact ⟨h2, h3, h4⟩

theorem takeWhile_length_eq {α : Type} (p : α → Bool) (d : α) :
    ∀ (l : List α) (r : Nat), r ≤ l.length →
      (∀ k, k < r → p (l.getD k d) = true) →
      (r < l.length → p (l.getD r d) = false) →
      (l.takeWhile p).length = r := by
  intro l
  induction l with
  | nil => intro r hr _ _; simp at hr; simp [hr]
  | cons a tl ih =>
      intro r hr h1 h2
      cases r with
      | zero =>
          have hpa : p a = false := h2 (by simp)
          simp [List.takeWhile_cons, hpa]
      | succ r' =>
          have hpa : p a = true := h1 0 (by omega)
          simp only [List.takeWhile_cons, hpa, if_true, List.length_cons]
          have := ih r' (by simpa using hr)
            (fun k hk => h1 (k + 1) (by omega))
            (fun hk => h2 (by simpa using hk))
          omega

theorem take_takeWhile_len {α : Type} (p : α → Bool) :
    ∀ l : List α, l.take (l.takeWhile p).length = l.takeWhile p := by
  intro l
  induction l with
  | nil => simp
  | cons a tl ih =>
      cases hpa : p a <;> simp [List.takeWhile_cons, hpa, ih]

theorem drop_takeWhile_len {α : Type} (p : α → Bool) :
    ∀ l : List α, l.drop (l.takeWhile p).length = l.dropWhile p := by
  intro l
  induction l with
  | nil => simp
  | cons a tl ih =>
      cases hpa : p a <;> simp [List.takeWhile_cons, List.dropWhile_cons, hpa, ih]

theorem getD_commitTs_mono (l : List Event) (d : Event)
    (hs : List.Pairwise (fun a b => a.commitTs ≤ b.commitTs) l)
    (a b : Nat) (hab : a ≤ b) (hb : b < l.length) :
    (l.getD a d).commitTs ≤ (l.getD b d).commitTs := by
  rcases Nat.eq_or_lt_of_le hab with h | h
  · subst h; exact le_refl _
  · rw [List.getD_eq_getElem l d (by omega), List.getD_eq_getElem l d hb]
    exact List.pairwise_iff_getElem.1 hs a b (by omega) hb h

theorem searchIndex_eq_takeWhile (l : List Event) (ts : Nat)
    (hs : List.Pairwise (fun a b => a.commitTs ≤ b.commitTs) l) :
    sortSearch l.length
        (fun k => decide
          (ts < (l.getD k { payload := 0, commitTs := 0 }).commitTs)) =
      (l.takeWhile fun ev => decide (ev.commitTs ≤ ts)).length := by
  set d0 : Event := { payload := 0, commitTs := 0 } with hd0
  set f : Nat → Bool := fun k => decide (ts < (l.getD k d0).commitTs) with hf
  have mono : ∀ a b, a ≤ b → b < l.length → f a = true → f b = true := by
    intro a b hab hb ha
    simp only [hf, decide_eq_true_eq] at ha ⊢
    exact Nat.lt_of_lt_of_le ha (getD_commitTs_mono l d0 hs a b hab hb)
  obtain ⟨hle, hlow, hhigh⟩ := sortSearch_spec f l.length mono
  symm
  apply takeWhile_length_eq _ d0 l (sortSearch l.length f) hle
  · intro k hk
    have := hlow k hk
    simp only [hf, decide_eq_false_iff_not, Nat.not_lt] at this
    simpa using this
  · intro hk
    have := hhigh (sortSearch l.length f) (le_refl _) hk
    simp only [hf, decide_eq_true_eq] at this
    simp only [decide_eq_false_iff_not, Nat.not_le]
    exact this

theorem takeWhile_nil_dropWhile {α : Type} (p : α → Bool) (l : List α)
    (h : l.takeWhile p = []) : l.dropWhile p = l := by
  cases l with
  | nil => simp
  | cons a tl =>
      cases hpa : p a
      · simp [List.dropWhile_cons, hpa]
      · simp [List.takeWhile_cons, hpa] at h

theorem wrapEvents_map_event (evs : List Event) :
    ∀ t : Tracker, ((wrapEvents t evs).2.map fun c => c.event) = evs := by
  induction evs with
  | nil => intro t; simp [wrapEvents]
  | cons ev rest ih =>
      intro t
      simp [wrapEvents, Tracker.addEvent, ih]

/-! ## Helper lemmas about the lifecycle state machine -/

theorem markAsClosed_state (e : EventTableSink) :
    (EventTableSink.markAsClosed e).state = TableSinkState.stopped := by
  unfold EventTableSink.markAsClosed
  split
  · assumption
  · rfl

theorem gct_advance_state (e1 : EventTableSink) :
    (match Tracker.advance e1.tracker with
      | (t2, r) => ({ e1 with tracker := t2 }, r)).1.state = e1.state := by
  rcases h : Tracker.advance e1.tracker with ⟨t2, r⟩
  rfl

theorem getCheckpointTs_state (dead : Bool) (e : EventTableSink) :
    (EventTableSink.GetCheckpointTs dead e).1.state = e.state ∨
      (EventTableSink.GetCheckpointTs dead e).1.state = TableSinkState.stopped := by
  unfold EventTableSink.GetCheckpointTs
  simp only [gct_advance_state]
  split
  · split
    · right; exact markAsClosed_state _
    · left; rfl
  · left; rfl

theorem stateRank_le_two (s : TableSinkState) : stateRank s ≤ 2 := by
  cases s <;> simp [stateRank]

theorem state_of_two_le_rank {s : TableSinkState} (h : 2 ≤ stateRank s) :
    s = TableSinkState.stopped := by
  cases s <;> simp_all [stateRank]

theorem getCheckpointTs_rank (dead : Bool) (e : EventTableSink) :
    stateRank e.state ≤ stateRank (EventTableSink.GetCheckpointTs dead e).1.state := by
  rcases getCheckpointTs_state dead e with h | h <;> rw [h]
  exact stateRank_le_two _

theorem freeze_rank (dead : Bool) (e : EventTableSink) :
    stateRank e.state ≤ stateRank (EventTableSink.freeze dead e).state := by
  unfold EventTableSink.freeze
  dsimp only
  split
  · exact le_refl _
  · rename_i h
    have h2 := getCheckpointTs_rank dead
      { e with tracker := Tracker.freezeProcess e.tracker,
               state := TableSinkState.stopping }
    have h0 : e.state = TableSinkState.sinking := by
      cases hs : e.state
      · rfl
      · exact absurd (Or.inl (by exact hs)) h
      · exact absurd (Or.inr (by exact hs)) h
    rw [h0]
    calc stateRank TableSinkState.sinking ≤ 1 := by simp [stateRank]
      _ ≤ _ := by
          simpa [stateRank] using h2

theorem close_state (dead : Bool) (e : EventTableSink) :
    (EventTableSink.Close dead e).state = TableSinkState.stopped := by
  unfold EventTableSink.Close
  exact markAsClosed_state _

theorem asyncClose_rank (dead : Bool) (e : EventTableSink) :
    stateRank e.state ≤ stateRank (EventTableSink.AsyncClose dead e).1.state := by
  unfold EventTableSink.AsyncClose
  dsimp only
  rcases hcc : Tracker.checkClosed (EventTableSink.freeze dead e).tracker dead
    with ⟨t1, closed⟩
  split
  · rw [markAsClosed_state]
    exact stateRank_le_two _
  · exact freeze_rank dead e

theorem applyOp_rank (dead : Bool) (e : EventTableSink) (op : SinkOp) :
    stateRank e.state ≤ stateRank (applyOp dead e op).state := by
  cases op
  · exact freeze_rank dead e
  · rw [show (applyOp dead e SinkOp.markAsClosed).state = TableSinkState.stopped
        from markAsClosed_state e]
    exact stateRank_le_two _
  · rw [show (applyOp dead e SinkOp.close).state = TableSinkState.stopped
        from close_state dead e]
    exact stateRank_le_two _
  · exact asyncClose_rank dead e
  · exact getCheckpointTs_rank dead e

theorem applyOps_rank (dead : Bool) (ops : List SinkOp) :
    ∀ e : EventTableSink,
      stateRank e.state ≤ stateRank (applyOps dead e ops).state := by
  induction ops with
  | nil => intro e; exact le_refl _
  | cons op rest ih =>
      intro e
      exact le_trans (applyOp_rank dead e op) (ih (applyOp dead e op))

/-! ## Claims about the event table sink -/

/-- C1: a strictly advancing `UpdateResolvedTs r` on a buffer
non-decreasing in commit ts drains exactly the prefix of the buffer with
`commitTs ≤ r.ts`, wraps each drained event with an ack callback from
the progress tracker, enqueues the resolved-ts marker into the tracker
strictly before the `WriteEvents` backend call (visible in the recorded
trace), and when the drained prefix is empty still enqueues the marker
and calls `WriteEvents` with an empty batch. -/
theorem C1_advance_drains_le_prefix (e : EventTableSink) (r : ResolvedTs)
    (backendErr : Option GoError)
    (hgt : ResolvedTs.less e.maxResolvedTs r = true)
    (hsorted : List.Pairwise (fun a b => a.commitTs ≤ b.commitTs) e.eventBuffer) :
    EventTableSink.UpdateResolvedTs e r backendErr =
      ({ e with
          maxResolvedTs := r,
          eventBuffer :=
            e.eventBuffer.dropWhile fun ev => decide (ev.commitTs ≤ r.ts),
          tracker :=
            Tracker.addResolvedTs
              (wrapEvents e.tracker
                (e.eventBuffer.takeWhile fun ev => decide (ev.commitTs ≤ r.ts))).1
              r },
        ((wrapEvents e.tracker
            (e.eventBuffer.takeWhile fun ev => decide (ev.commitTs ≤ r.ts))).2.map
              fun c => SinkAction.addEvent c.ackId) ++
          [SinkAction.addResolvedTs r,
            SinkAction.writeEvents
              (wrapEvents e.tracker
                (e.eventBuffer.takeWhile fun ev => decide (ev.commitTs ≤ r.ts))).2],
        match backendErr with
        | some ge => Except.error (SinkError.sinkInternalError ge)
        | none => Except.ok ()) ∧
      ((wrapEvents e.tracker
          (e.eventBuffer.takeWhile fun ev => decide (ev.commitTs ≤ r.ts))).2.map
            fun c => c.event) =
        e.eventBuffer.takeWhile fun ev => decide (ev.commitTs ≤ r.ts) := by
  refine ⟨?_, wrapEvents_map_event _ e.tracker⟩
  have hguard := ResolvedTs.eog_false_of_less hgt
  have hidx := searchIndex_eq_takeWhile e.eventBuffer r.ts hsorted
  unfold EventTableSink.UpdateResolvedTs
  rw [hguard]
  rw [if_neg Bool.false_ne_true]
  dsimp only
  rw [hidx]
  by_cases h0 :
      (e.eventBuffer.takeWhile fun ev => decide (ev.commitTs ≤ r.ts)).length = 0
  · rw [if_pos h0]
    have hnil : e.eventBuffer.takeWhile (fun ev => decide (ev.commitTs ≤ r.ts)) = [] :=
      List.length_eq_zero.mp h0
    rw [hnil, takeWhile_nil_dropWhile _ _ hnil]
    simp [wrapEvents]
  · rw [if_neg h0]
    rw [take_takeWhile_len, drop_takeWhile_len]

/-- C1 witness: on a sink with buffered commit timestamps 3, 5, 7,
advancing to 6 produces the trace add-event 0, add-event 1, marker,
write of the two wrapped events — the marker enqueued before the
write. -/
theorem C1_witness :
    (EventTableSink.UpdateResolvedTs wSink1 wR6 none).2.1 =
      [SinkAction.addEvent 0, SinkAction.addEvent 1,
        SinkAction.addResolvedTs wR6,
        SinkAction.writeEvents
          [{ event := { payload := 1, commitTs := 3 }, ackId := 0 },
            { event := { payload := 2, commitTs := 5 }, ackId := 1 }]] := by
  have h := C1_advance_drains_le_prefix wSink1 wR6 none (by decide) (by decide)
  rw [h.1]
  rfl

/-- C2: when `r` is not strictly greater than the current
`maxResolvedTs`, `UpdateResolvedTs` returns success immediately and is a
complete no-op: the sink (its `maxResolvedTs`, event buffer and progress
tracker) is unchanged and no tracker or backend call is made. -/
theorem C2_non_monotone_advance_is_noop (e : EventTableSink) (r : ResolvedTs)
    (backendErr : Option GoError)
    (hle : ResolvedTs.less e.maxResolvedTs r = false) :
    EventTableSink.UpdateResolvedTs e r backendErr = (e, [], Except.ok ()) := by
  have hguard := ResolvedTs.eog_true_of_not_less hle
  unfold EventTableSink.UpdateResolvedTs
  rw [hguard, if_pos rfl]

/-- C2 witness: advancing to 30 after 50 is a no-op. -/
theorem C2_witness :
    EventTableSink.UpdateResolvedTs wSink2 wR30 none = (wSink2, [], Except.ok ()) :=
  C2_non_monotone_advance_is_noop wSink2 wR30 none (by decide)

/-- C3 counterexample: on a sink whose state is `Stopped`, `append`
still adds the event to the buffer — the claimed rejection of appends
outside `Sinking` does not happen in this code. -/
theorem C3_counterexample :
    wSinkStopped.state ≠ TableSinkState.sinking ∧
      (EventTableSink.AppendRowChangedEvents wSinkStopped [wEvent5]).eventBuffer ≠
        wSinkStopped.eventBuffer := by
  decide

/-- C3 amended: `AppendRowChangedEvents` appends the given events to the
event buffer in insertion order unconditionally, in every state — the
facade performs no state check and leaves the state unchanged; the
`state == Sinking` precondition is the caller's obligation. -/
theorem C3_amended_append_unconditional (e : EventTableSink) (rows : List Event) :
    (EventTableSink.AppendRowChangedEvents e rows).eventBuffer =
        e.eventBuffer ++ rows ∧
      (EventTableSink.AppendRowChangedEvents e rows).state = e.state :=
  ⟨rfl, rfl⟩

/-- C4: under any sequence of `freeze`, `markAsClosed`, `Close`,
`AsyncClose` and `GetCheckpointTs` calls the state only moves forward
along `Sinking → Stopping → Stopped`: its rank never decreases, once
`Stopping` it never returns to `Sinking`, once `Stopped` it stays
`Stopped`, and `Close` is idempotent — a second `Close` again leaves the
state `Stopped`. -/
theorem C4_state_monotone (dead : Bool) (e : EventTableSink) (ops : List SinkOp) :
    stateRank e.state ≤ stateRank (applyOps dead e ops).state ∧
      (e.state = TableSinkState.stopping →
        (applyOps dead e ops).state ≠ TableSinkState.sinking) ∧
      (e.state = TableSinkState.stopped →
        (applyOps dead e ops).state = TableSinkState.stopped) ∧
      (EventTableSink.Close dead (EventTableSink.Close dead e)).state =
        TableSinkState.stopped := by
  have hr := applyOps_rank dead ops e
  refine ⟨hr, ?_, ?_, close_state dead _⟩
  · intro h1 h2
    rw [h1] at hr
    rw [h2] at hr
    simp [stateRank] at hr
  · intro h1
    rw [h1] at hr
    exact state_of_two_le_rank hr

/-- C4 witness: a stopped sink stays stopped across a probe, a close and
a freeze. -/
theorem C4_witness :
    (applyOps false wSinkStopped
        [SinkOp.getCheckpointTs, SinkOp.close, SinkOp.freeze]).state =
      TableSinkState.stopped :=
  (C4_state_monotone false wSinkStopped
      [SinkOp.getCheckpointTs, SinkOp.close, SinkOp.freeze]).2.2.1 rfl

/-- C5: when the backend `WriteEvents` call made inside a strictly
advancing `UpdateResolvedTs` returns an error, the error is wrapped as
`SinkInternalError` and returned to the caller, and the sink's state
field is left exactly as it was. -/
theorem C5_backend_error_wrapped (e : EventTableSink) (r : ResolvedTs)
    (ge : GoError) (hgt : ResolvedTs.less e.maxResolvedTs r = true) :
    (EventTableSink.UpdateResolvedTs e r (some ge)).2.2 =
        Except.error (SinkError.sinkInternalError ge) ∧
      (EventTableSink.UpdateResolvedTs e r (some ge)).1.state = e.state := by
  have hguard := ResolvedTs.eog_false_of_less hgt
  unfold EventTableSink.UpdateResolvedTs
  rw [hguard]
  rw [if_neg Bool.false_ne_true]
  dsimp only
  split
  · exact ⟨rfl, rfl⟩
  · rcases hw : wrapEvents e.tracker
        (List.take
          (sortSearch e.eventBuffer.length fun k =>
            decide
              (r.ts < (e.eventBuffer.getD k { payload := 0, commitTs := 0 }).commitTs))
          e.eventBuffer) with ⟨t1, ces⟩
    exact ⟨rfl, rfl⟩

/-- C5 witness: a failing write during an advance to 100 returns the
wrapped backend error and keeps the state `Sinking`. -/
theorem C5_witness :
    (EventTableSink.UpdateResolvedTs wSink1 wR100 (some wErr7)).2.2 =
        Except.error (SinkError.sinkInternalError wErr7) ∧
      (EventTableSink.UpdateResolvedTs wSink1 wR100 (some wErr7)).1.state =
        wSink1.state :=
  C5_backend_error_wrapped wSink1 wR100 wErr7 (by decide)

/-! ## Helper lemmas about the configuration reconciler -/

theorem getOrZero_eq_ptrVal {α : Type} [Inhabited α] (p : GoPtr α) :
    getOrZero p = (ptrVal p).getD default := by
  rcases p with _ | ⟨i, v⟩ <;> rfl

theorem isSome_eq_ptrVal {α : Type} (p : GoPtr α) :
    p.isSome = (ptrVal p).isSome := by
  rcases p with _ | ⟨i, v⟩ <;> rfl

theorem apply_fst (s : SinkConfig) (uri : SinkURI) :
    (SinkConfig.applyParameterBySinkURI s (some uri)).1 =
      { s with
          txnAtomicity :=
            if uri.txnAtomicityQ ≠ "" then addressOf uri.txnAtomicityQ
            else s.txnAtomicity,
          protocol :=
            if uri.protocolQ ≠ "" then addressOf uri.protocolQ
            else s.protocol } := by
  by_cases hA : uri.txnAtomicityQ = "" <;>
    by_cases hB : getOrZero s.txnAtomicity ≠ "" ∧
      getOrZero s.txnAtomicity ≠ uri.txnAtomicityQ <;>
    by_cases hC : uri.protocolQ = "" <;>
    by_cases hD : s.protocol.isSome ∧ getOrZero s.protocol ≠ uri.protocolQ <;>
    simp [SinkConfig.applyParameterBySinkURI, hA, hB, hC, hD]

theorem apply_cases (s : SinkConfig) (uri? : Option SinkURI) :
    (SinkConfig.applyParameterBySinkURI s uri?).2 = VResult.ok ∨
      isIncompatibleRes (SinkConfig.applyParameterBySinkURI s uri?).2 = true := by
  cases uri? with
  | none => left; rfl
  | some uri =>
      by_cases hA : uri.txnAtomicityQ = "" <;>
        by_cases hB : getOrZero s.txnAtomicity ≠ "" ∧
          getOrZero s.txnAtomicity ≠ uri.txnAtomicityQ <;>
        by_cases hC : uri.protocolQ = "" <;>
        by_cases hD : s.protocol.isSome ∧ getOrZero s.protocol ≠ uri.protocolQ <;>
        simp [SinkConfig.applyParameterBySinkURI, hA, hB, hC, hD,
          isIncompatibleRes, isIncompatibleErr]

theorem isIncompatibleRes_shape {v : VResult} (h : isIncompatibleRes v = true) :
    ∃ m1 m2, v = VResult.err (ConfigError.incompatibleSinkConfig m1 m2) := by
  cases v with
  | ok => simp [isIncompatibleRes] at h
  | fatal => simp [isIncompatibleRes] at h
  | err e =>
      cases e with
      | incompatibleSinkConfig m1 m2 => exact ⟨m1, m2, rfl⟩
      | sinkURIInvalid msg => simp [isIncompatibleRes, isIncompatibleErr] at h
      | sinkInvalidConfig msg => simp [isIncompatibleRes, isIncompatibleErr] at h
      | storageSinkInvalidDateSeparator a =>
          simp [isIncompatibleRes, isIncompatibleErr] at h
      | unknownProtocol a => simp [isIncompatibleRes, isIncompatibleErr] at h

theorem apply_snd_eq_of_vals (s1 s2 : SinkConfig) (uri : SinkURI)
    (hp : ptrVal s1.protocol = ptrVal s2.protocol)
    (ht : ptrVal s1.txnAtomicity = ptrVal s2.txnAtomicity) :
    (SinkConfig.applyParameterBySinkURI s1 (some uri)).2 =
      (SinkConfig.applyParameterBySinkURI s2 (some uri)).2 := by
  have hg : getOrZero s1.protocol = getOrZero s2.protocol := by
    rw [getOrZero_eq_ptrVal, getOrZero_eq_ptrVal, hp]
  have hgt : getOrZero s1.txnAtomicity = getOrZero s2.txnAtomicity := by
    rw [getOrZero_eq_ptrVal, getOrZero_eq_ptrVal, ht]
  have hsome : s1.protocol.isSome = s2.protocol.isSome := by
    rw [isSome_eq_ptrVal, isSome_eq_ptrVal, hp]
  by_cases hA : uri.txnAtomicityQ = "" <;>
    by_cases hB : getOrZero s2.txnAtomicity ≠ "" ∧
      getOrZero s2.txnAtomicity ≠ uri.txnAtomicityQ <;>
    by_cases hC : uri.protocolQ = "" <;>
    by_cases hD : s2.protocol.isSome ∧ getOrZero s2.protocol ≠ uri.protocolQ <;>
    simp [SinkConfig.applyParameterBySinkURI, hA, hB, hC, hD, hg, hgt, hsome]

theorem storage_not_mysql {scheme : String}
    (h : IsStorageScheme scheme = true) :
    IsMySQLCompatibleScheme scheme = false := by
  simp only [IsStorageScheme, Bool.or_eq_true, beq_iff_eq] at h
  rcases h with ((((h | h) | h) | h) | h) | h <;> subst h <;> rfl

theorem sinkURIChecks_fst (c : SinkConfig) (uri : SinkURI) :
    (SinkConfig.sinkURIChecks c uri).1 = c := by
  unfold SinkConfig.sinkURIChecks
  repeat' split
  all_goals rfl

theorem apply_width_frame (s : SinkConfig) (uri? : Option SinkURI) (w : GoPtr Int) :
    SinkConfig.applyParameterBySinkURI { s with fileIndexWidth := w } uri? =
      ({ (SinkConfig.applyParameterBySinkURI s uri?).1 with fileIndexWidth := w },
        (SinkConfig.applyParameterBySinkURI s uri?).2) := by
  cases uri? with
  | none => rfl
  | some uri =>
      by_cases hA : uri.txnAtomicityQ = "" <;>
        by_cases hB : getOrZero s.txnAtomicity ≠ "" ∧
          getOrZero s.txnAtomicity ≠ uri.txnAtomicityQ <;>
        by_cases hC : uri.protocolQ = "" <;>
        by_cases hD : s.protocol.isSome ∧ getOrZero s.protocol ≠ uri.protocolQ <;>
        simp [SinkConfig.applyParameterBySinkURI, hA, hB, hC, hD]

theorem sinkURIChecks_width_frame (c : SinkConfig) (uri : SinkURI) (w : GoPtr Int) :
    SinkConfig.sinkURIChecks { c with fileIndexWidth := w } uri =
      ({ (SinkConfig.sinkURIChecks c uri).1 with fileIndexWidth := w },
        (SinkConfig.sinkURIChecks c uri).2) := by
  unfold SinkConfig.sinkURIChecks
  dsimp only
  repeat' split
  all_goals rfl

theorem vaus_width_frame (s : SinkConfig) (uri? : Option SinkURI) (w : GoPtr Int) :
    SinkConfig.validateAndAdjustSinkURI { s with fileIndexWidth := w } uri? =
      ({ (SinkConfig.validateAndAdjustSinkURI s uri?).1 with fileIndexWidth := w },
        (SinkConfig.validateAndAdjustSinkURI s uri?).2) := by
  cases uri? with
  | none => rfl
  | some uri =>
      unfold SinkConfig.validateAndAdjustSinkURI
      dsimp only
      rw [apply_width_frame]
      rcases ha : SinkConfig.applyParameterBySinkURI s (some uri) with ⟨c1, r1⟩
      cases r1 with
      | ok => exact sinkURIChecks_width_frame c1 uri w
      | fatal => rfl
      | err e =>
          by_cases hie : isIncompatibleErr e = true
          · simp only [hie, if_pos]
            exact sinkURIChecks_width_frame c1 uri w
          · simp only [Bool.not_eq_true] at hie
            simp only [hie, Bool.false_eq_true, if_false]

theorem vaus_fst_frame (s : SinkConfig) (uri : SinkURI) :
    (SinkConfig.validateAndAdjustSinkURI s (some uri)).1 =
      (SinkConfig.applyParameterBySinkURI s (some uri)).1 := by
  unfold SinkConfig.validateAndAdjustSinkURI
  dsimp only
  rcases ha : SinkConfig.applyParameterBySinkURI s (some uri) with ⟨c1, r1⟩
  cases r1 with
  | ok => exact sinkURIChecks_fst c1 uri
  | fatal => rfl
  | err e =>
      by_cases hie : isIncompatibleErr e = true
      · simp only [hie, if_pos]
        exact sinkURIChecks_fst c1 uri
      · simp only [Bool.not_eq_true] at hie
        simp only [hie, Bool.false_eq_true, if_false]

theorem validateAndAdjust_snd_width_frame (s : SinkConfig) (uri : SinkURI)
    (w : GoPtr Int) :
    (SinkConfig.validateAndAdjust { s with fileIndexWidth := w } uri).2 =
      (SinkConfig.validateAndAdjust s uri).2 := by
  unfold SinkConfig.validateAndAdjust
  rw [vaus_width_frame]
  rcases hv : SinkConfig.validateAndAdjustSinkURI s (some uri) with ⟨c1, r1⟩
  cases r1 with
  | err e => rfl
  | fatal => rfl
  | ok =>
      dsimp only
      repeat' (first | dsimp only | split)
      all_goals (first | rfl | (split_ifs at * <;> simp_all))

theorem validateAndAdjust_width (s : SinkConfig) (uri : SinkURI)
    (hst : IsStorageScheme uri.scheme = true)
    (hok : (SinkConfig.validateAndAdjust s uri).2 = VResult.ok) :
    (SinkConfig.validateAndAdjust s uri).1.fileIndexWidth =
      (if getOrZero s.fileIndexWidth < MinFileIndexWidth ∨
          MaxFileIndexWidth < getOrZero s.fileIndexWidth then
        addressOf DefaultFileIndexWidth
      else s.fileIndexWidth) := by
  have hmy : IsMySQLCompatibleScheme uri.scheme = false := storage_not_mysql hst
  have hw1 : (SinkConfig.validateAndAdjustSinkURI s (some uri)).1.fileIndexWidth =
      s.fileIndexWidth := by
    rw [vaus_fst_frame, apply_fst]
  unfold SinkConfig.validateAndAdjust at hok ⊢
  rcases hv : SinkConfig.validateAndAdjustSinkURI s (some uri) with ⟨c1, r1⟩
  rw [hv] at hok hw1
  dsimp only at hw1
  cases r1 with
  | err e => simp at hok
  | fatal => simp at hok
  | ok =>
      dsimp only at hok ⊢
      simp only [hmy, Bool.false_eq_true, if_false] at hok ⊢
      simp only [hst, if_pos] at hok ⊢
      repeat' (first | dsimp only | split)
      all_goals simp_all

theorem atomicity_validate_shape {l scheme : String} {e : ConfigError}
    (h : AtomicityLevel.validate l scheme = some e) :
    ∃ msg, e = ConfigError.sinkURIInvalid msg := by
  unfold AtomicityLevel.validate at h
  repeat' split at h
  all_goals cases h
  all_goals exact ⟨_, rfl⟩

theorem parse_snd_shape {p : String} {e : ConfigError}
    (h : (ParseSinkProtocolFromString p).2 = some e) :
    ∃ a, e = ConfigError.unknownProtocol a := by
  unfold ParseSinkProtocolFromString at h
  repeat' (first | (dsimp only at h) | split at h)
  all_goals cases h
  all_goals exact ⟨_, rfl⟩

theorem sinkURIChecks_ne_incompat (c : SinkConfig) (uri : SinkURI)
    (m1 m2 : List (String × String)) :
    (SinkConfig.sinkURIChecks c uri).2 ≠
      VResult.err (ConfigError.incompatibleSinkConfig m1 m2) := by
  unfold SinkConfig.sinkURIChecks
  split
  · rename_i e heq
    obtain ⟨msg, rfl⟩ := atomicity_validate_shape heq
    simp
  · split
    · split
      · rename_i e2 heq2
        obtain ⟨a, rfl⟩ := parse_snd_shape heq2
        simp
      · simp
    · split
      · simp
      · simp

theorem apply_snd_spec (s : SinkConfig) (uri : SinkURI) :
    (SinkConfig.applyParameterBySinkURI s (some uri)).2 =
      (if specRecordedURI s uri = [] then VResult.ok
       else
        VResult.err (ConfigError.incompatibleSinkConfig
          (specRecordedURI s uri) (specRecordedFile s uri))) := by
  by_cases hA : uri.txnAtomicityQ = "" <;>
    by_cases hB : getOrZero s.txnAtomicity ≠ "" ∧
      getOrZero s.txnAtomicity ≠ uri.txnAtomicityQ <;>
    by_cases hC : uri.protocolQ = "" <;>
    by_cases hD : s.protocol.isSome ∧ getOrZero s.protocol ≠ uri.protocolQ <;>
    simp [SinkConfig.applyParameterBySinkURI, specRecordedURI, specRecordedFile,
      hA, hB, hC, hD]

theorem specRecorded_length (s : SinkConfig) (uri : SinkURI) :
    (specRecordedURI s uri).length = (specRecordedFile s uri).length := by
  unfold specRecordedURI specRecordedFile
  repeat' split
  all_goals rfl

/-! ## Claims about the configuration reconciler -/

/-- C6 counterexample: with a config whose protocol pointer is non-nil
but points to the empty string (an empty value, not a non-empty one) and
a URI supplying `protocol=open`, `applyParameterBySinkURI` still records
the pair in both maps and returns `IncompatibleSinkConfig` — the claim
that a pair is recorded only when *both* sides supply a non-empty value
is false. -/
theorem C6_counterexample :
    getOrZero cfgEmptyProto.protocol = "" ∧
      (SinkConfig.applyParameterBySinkURI cfgEmptyProto (some uriKafkaOpen)).2 =
        VResult.err (ConfigError.incompatibleSinkConfig
          [(ProtocolKey, "open")] [(ProtocolKey, "")]) := by
  exact ⟨rfl, rfl⟩

/-- C6 amended: `applyParameterBySinkURI` sets transaction-atomicity and
protocol to the URI value whenever the URI supplies a non-empty value
(URI wins) and leaves them otherwise; for transaction-atomicity a pair
is recorded in both maps exactly when both values are non-empty and
differ, while for protocol a pair is recorded exactly when the URI value
is non-empty, the config pointer is non-nil (its value may be empty) and
the values differ; the call succeeds when both maps are empty and
returns `IncompatibleSinkConfig` carrying both maps otherwise, the two
maps always having equal size. -/
theorem C6_amended_apply_parameter (s : SinkConfig) (uri : SinkURI) :
    ptrVal (SinkConfig.applyParameterBySinkURI s (some uri)).1.txnAtomicity =
        (if uri.txnAtomicityQ ≠ "" then some uri.txnAtomicityQ
         else ptrVal s.txnAtomicity) ∧
      ptrVal (SinkConfig.applyParameterBySinkURI s (some uri)).1.protocol =
        (if uri.protocolQ ≠ "" then some uri.protocolQ else ptrVal s.protocol) ∧
      (SinkConfig.applyParameterBySinkURI s (some uri)).2 =
        (if specRecordedURI s uri = [] then VResult.ok
         else
          VResult.err (ConfigError.incompatibleSinkConfig
            (specRecordedURI s uri) (specRecordedFile s uri))) ∧
      (specRecordedURI s uri).length = (specRecordedFile s uri).length := by
  refine ⟨?_, ?_, apply_snd_spec s uri, specRecorded_length s uri⟩
  · rw [apply_fst]
    dsimp only
    split <;> rfl
  · rw [apply_fst]
    dsimp only
    split <;> rfl

/-- C7: `CheckCompatibilityWithSinkURI` returns OK when neither the
URI-derived parameters (reconciling the old config against the URI
raises no incompatibility) nor the config parameter values changed;
when the URI-derived parameters changed and reconciling the new config
also reports `IncompatibleSinkConfig`, the error is suppressed and OK
returned; otherwise the reconciliation result (error or success, with
the reconciled config) is propagated. -/
theorem C7_check_compatibility (s oldSinkConfig : SinkConfig) (uri : SinkURI) :
    ((ptrVal s.protocol = ptrVal oldSinkConfig.protocol ∧
        ptrVal s.txnAtomicity = ptrVal oldSinkConfig.txnAtomicity ∧
        isIncompatibleRes
          (SinkConfig.applyParameterBySinkURI oldSinkConfig (some uri)).2 = false) →
      (SinkConfig.CheckCompatibilityWithSinkURI s oldSinkConfig uri).2 =
        VResult.ok) ∧
      ((isIncompatibleRes
          (SinkConfig.applyParameterBySinkURI oldSinkConfig (some uri)).2 = true ∧
        isIncompatibleRes
          (SinkConfig.applyParameterBySinkURI s (some uri)).2 = true) →
        (SinkConfig.CheckCompatibilityWithSinkURI s oldSinkConfig uri).2 =
          VResult.ok) ∧
      ((isIncompatibleRes
          (SinkConfig.applyParameterBySinkURI oldSinkConfig (some uri)).2 = false ∧
        (goPtrEq s.protocol oldSinkConfig.protocol = false ∨
          goPtrEq s.txnAtomicity oldSinkConfig.txnAtomicity = false)) →
        SinkConfig.CheckCompatibilityWithSinkURI s oldSinkConfig uri =
          SinkConfig.applyParameterBySinkURI s (some uri)) := by
  refine ⟨?_, ?_, ?_⟩
  · rintro ⟨hvp, hvt, hinc⟩
    have happly : (SinkConfig.applyParameterBySinkURI s (some uri)).2 =
        VResult.ok := by
      have heq := apply_snd_eq_of_vals s oldSinkConfig uri hvp hvt
      rcases apply_cases oldSinkConfig (some uri) with h | h
      · rw [heq, h]
      · simp [hinc] at h
    unfold SinkConfig.CheckCompatibilityWithSinkURI
    dsimp only
    rw [hinc]
    cases hcp : (!(goPtrEq s.protocol oldSinkConfig.protocol) ||
        !(goPtrEq s.txnAtomicity oldSinkConfig.txnAtomicity)) with
    | false => simp [hcp]
    | true =>
        simp only [hcp, Bool.not_false, Bool.and_true, Bool.not_true,
          Bool.and_false, Bool.false_eq_true, if_false]
        rcases hs1 : SinkConfig.applyParameterBySinkURI s (some uri) with ⟨s1, r⟩
        rw [hs1] at happly
        dsimp only at happly
        subst happly
        simp
  · rintro ⟨hold, hnew⟩
    unfold SinkConfig.CheckCompatibilityWithSinkURI
    dsimp only
    rw [hold]
    simp only [Bool.not_true, Bool.false_and, Bool.false_eq_true, if_false]
    rcases hs1 : SinkConfig.applyParameterBySinkURI s (some uri) with ⟨s1, r⟩
    rw [hs1] at hnew
    dsimp only at hnew
    simp [hnew]
  · rintro ⟨hold, hcp⟩
    unfold SinkConfig.CheckCompatibilityWithSinkURI
    dsimp only
    rw [hold]
    have hcpb : (!(goPtrEq s.protocol oldSinkConfig.protocol) ||
        !(goPtrEq s.txnAtomicity oldSinkConfig.txnAtomicity)) = true := by
      rcases hcp with h | h <;> simp [h]
    rw [hcpb]
    simp only [Bool.not_true, Bool.and_false, Bool.not_false, Bool.and_true,
      Bool.false_and, Bool.false_eq_true, if_false]

/-- C7 witness: identical old and new configs against a query-free kafka
URI are compatible. -/
theorem C7_witness :
    (SinkConfig.CheckCompatibilityWithSinkURI cfgNil cfgNil uriKafkaPlain).2 =
      VResult.ok :=
  (C7_check_compatibility cfgNil cfgNil uriKafkaPlain).1 ⟨rfl, rfl, by decide⟩

/-- C8: against a storage-scheme URI the file-index-width never affects
the validation outcome (replacing it with any value yields the same
status), an out-of-range or unset value is silently replaced by the
default 20 on success, and an in-range value is left unchanged. -/
theorem C8_file_index_width_clamped (s : SinkConfig) (uri : SinkURI)
    (w : GoPtr Int) (hst : IsStorageScheme uri.scheme = true) :
    (SinkConfig.validateAndAdjust { s with fileIndexWidth := w } uri).2 =
        (SinkConfig.validateAndAdjust s uri).2 ∧
      ((SinkConfig.validateAndAdjust s uri).2 = VResult.ok →
        ptrVal (SinkConfig.validateAndAdjust s uri).1.fileIndexWidth =
          some (if MinFileIndexWidth ≤ getOrZero s.fileIndexWidth ∧
              getOrZero s.fileIndexWidth ≤ MaxFileIndexWidth then
            getOrZero s.fileIndexWidth
          else DefaultFileIndexWidth)) ∧
      ((SinkConfig.validateAndAdjust s uri).2 = VResult.ok →
        MinFileIndexWidth ≤ getOrZero s.fileIndexWidth →
        getOrZero s.fileIndexWidth ≤ MaxFileIndexWidth →
        (SinkConfig.validateAndAdjust s uri).1.fileIndexWidth =
          s.fileIndexWidth) := by
  refine ⟨validateAndAdjust_snd_width_frame s uri w, ?_, ?_⟩
  · intro hok
    rw [validateAndAdjust_width s uri hst hok]
    simp only [MinFileIndexWidth, MaxFileIndexWidth, DefaultFileIndexWidth]
    split
    · rename_i hcond
      rw [if_neg (by omega)]
      rfl
    · rename_i hcond
      rw [if_pos (by omega)]
      rcases hsw : s.fileIndexWidth with _ | ⟨i, v⟩
      · rw [hsw] at hcond
        simp [getOrZero] at hcond
      · rfl
  · intro hok h1 h2
    rw [validateAndAdjust_width s uri hst hok]
    simp only [MinFileIndexWidth, MaxFileIndexWidth, DefaultFileIndexWidth] at h1 h2 ⊢
    rw [if_neg (by omega)]

/-- C8 witness: a storage config with file-index-width 3 validates
successfully and exposes the default width 20. -/
theorem C8_witness :
    ptrVal (SinkConfig.validateAndAdjust cfgStorageW3 uriS3).1.fileIndexWidth =
      some 20 := by
  have h := (C8_file_index_width_clamped cfgStorageW3 uriS3 none (by decide)).2.1
    (by decide)
  rw [h]
  decide

/-- C9: the two diagnostic maps of `applyParameterBySinkURI` always grow
in pairs, so the fatal `log.Panic` branch for unequal map sizes is
unreachable: no input configuration and URI makes the function fail
fatally. -/
theorem C9_fatal_unreachable (s : SinkConfig) (uri? : Option SinkURI) :
    (SinkConfig.applyParameterBySinkURI s uri?).2 ≠ VResult.fatal := by
  rcases apply_cases s uri? with h | h
  · rw [h]
    simp
  · obtain ⟨m1, m2, hshape⟩ := isIncompatibleRes_shape h
    rw [hshape]
    simp

/-- C10: `validateAndAdjustSinkURI` never returns an
`IncompatibleSinkConfig` error (the reconciliation's incompatibility is
swallowed, only logged), and validation proceeds with the URI-supplied
values: a non-empty URI protocol ends up in the returned config. -/
theorem C10_incompatibility_swallowed (s : SinkConfig) (uri? : Option SinkURI) :
    (∀ m1 m2,
      (SinkConfig.validateAndAdjustSinkURI s uri?).2 ≠
        VResult.err (ConfigError.incompatibleSinkConfig m1 m2)) ∧
      (∀ uri, uri? = some uri → uri.protocolQ ≠ "" →
        ptrVal (SinkConfig.validateAndAdjustSinkURI s uri?).1.protocol =
          some uri.protocolQ) := by
  constructor
  · intro m1 m2
    cases uri? with
    | none => simp [SinkConfig.validateAndAdjustSinkURI]
    | some uri =>
        unfold SinkConfig.validateAndAdjustSinkURI
        dsimp only
        rcases ha : SinkConfig.applyParameterBySinkURI s (some uri) with ⟨c1, r1⟩
        cases r1 with
        | fatal => simp
        | ok => exact sinkURIChecks_ne_incompat c1 uri m1 m2
        | err e =>
            by_cases hie : isIncompatibleErr e = true
            · simp only [hie, if_pos]
              exact sinkURIChecks_ne_incompat c1 uri m1 m2
            · simp only [Bool.not_eq_true] at hie
              simp only [hie, Bool.false_eq_true, if_false]
              intro hcontra
              rcases hcontra with ⟨⟩
              simp [isIncompatibleErr] at hie
  · intro uri huri hproto
    subst huri
    have hc1 : (SinkConfig.applyParameterBySinkURI s (some uri)).1.protocol =
        addressOf uri.protocolQ := by
      rw [apply_fst]
      dsimp only
      rw [if_pos hproto]
    unfold SinkConfig.validateAndAdjustSinkURI
    dsimp only
    rcases ha : SinkConfig.applyParameterBySinkURI s (some uri) with ⟨c1, r1⟩
    rw [ha] at hc1
    dsimp only at hc1
    cases r1 with
    | fatal => rw [hc1]; rfl
    | ok => rw [sinkURIChecks_fst, hc1]; rfl
    | err e =>
        by_cases hie : isIncompatibleErr e = true
        · simp only [hie, if_pos]
          rw [sinkURIChecks_fst, hc1]
          rfl
        · simp only [Bool.not_eq_true] at hie
          simp only [hie, Bool.false_eq_true, if_false]
          rw [hc1]
          rfl

/-- C10 witness: a kafka URI carrying `protocol=open` leaves `open` in
the validated config even though the checks run after the swallowed
reconciliation. -/
theorem C10_witness :
    ptrVal (SinkConfig.validateAndAdjustSinkURI cfgNil (some uriKafkaOpen)).1.protocol =
      some "open" :=
  (C10_incompatibility_swallowed cfgNil (some uriKafkaOpen)).2 uriKafkaOpen rfl
    (by decide)
